import Mathlib

/-!
Shallow embedding of the narrow-phase contact-generation core of the
`ncollide` repository, together with theorems settling the frozen claims.

Covered source files:
* `ncollide_pipeline/narrow_phase/contact_generator/ball_convex_polyhedron_manifold_generator.rs`
* `src/query/algorithms/voronoi_simplex2.rs`
* `src/narrow/one_shot_contact_manifold_generator.rs`

Modelling conventions: the generic point/vector type `P` of the Rust code is
embedded as a real normed vector space `V`; Rust `panic!`/failed asserts and
out-of-bounds indexing are modelled by an `Option` result (`none` = abort);
the external shape/query traits (`as_shape::<Ball>`, `as_point_query`,
`as_convex_polyhedron`) are modelled as optional capability fields of a
`Shape` record, exactly mirroring the `if let (Some, Some, Some)` dispatch.
-/

namespace NCollide

/-- FeatureId from `geometry::shape`: tagged variant Face/Edge/Vertex/Unknown. -/
inductive FeatureId where
  | face (i : ℕ)
  | edge (i : ℕ)
  | vertex (i : ℕ)
  | unknown
deriving DecidableEq, Repr

section BallGen

variable {V : Type} [NormedAddCommGroup V] [NormedSpace ℝ V]

/-- Result of `project_point_with_feature`'s `PointProjection` part:
the inside/outside classification and the projected (closest boundary) point. -/
structure PointProjection (V : Type) where
  is_inside : Bool
  point : V

/-- The part of an `Isometry` the generator uses: its translation component
(`m1.translation().to_vector()`) and inverse point transform
(`m2.inverse_transform_point`). -/
structure Iso (V : Type) where
  translation : V
  invTransform : V → V

/-- The convex-polyhedron query interface used by the generator:
`normal_cone` (returning the cone's generator directions) and `edge`
(returning the edge's two endpoints). -/
structure CPQueries (V : Type) where
  normal_cone : FeatureId → List V
  edge : FeatureId → V × V

/-- A shape, seen through the three capability queries the generator performs:
`as_shape::<Ball>` (the radius when the shape is a ball), `as_point_query`
(the point projection function, taking the pose and the query point), and
`as_convex_polyhedron`. -/
structure Shape (V : Type) where
  ball : Option ℝ
  pq : Option (Iso V → V → PointProjection V × FeatureId)
  cp : Option (CPQueries V)

/-- A contact: world point on shape 1, world point on shape 2, normal from
1 to 2, and signed penetration depth. -/
structure Contact (V : Type) where
  world1 : V
  world2 : V
  normal : V
  depth : ℝ

/-- One side of a `ContactKinematic`, as set by `set_point*`, `set_plane*`
or `set_line*`. -/
inductive KinSide (V : Type) where
  | empty
  | point (f : FeatureId) (p : V) (cone : List V)
  | plane (f : FeatureId) (p : V) (n : V)
  | line (f : FeatureId) (p : V) (dir : V) (cone : List V)

/-- ContactKinematic: per-side anchoring record plus dilation radii. -/
structure ContactKinematic (V : Type) where
  side1 : KinSide V
  side2 : KinSide V
  dilation1 : ℝ
  dilation2 : ℝ

namespace ContactKinematic

/-- Rust `ContactKinematic::new()`. -/
def new : ContactKinematic V := ⟨.empty, .empty, 0, 0⟩

def set_point1 (k : ContactKinematic V) (f : FeatureId) (p : V) (c : List V) :
    ContactKinematic V := { k with side1 := .point f p c }

def set_point2 (k : ContactKinematic V) (f : FeatureId) (p : V) (c : List V) :
    ContactKinematic V := { k with side2 := .point f p c }

def set_plane1 (k : ContactKinematic V) (f : FeatureId) (p : V) (n : V) :
    ContactKinematic V := { k with side1 := .plane f p n }

def set_plane2 (k : ContactKinematic V) (f : FeatureId) (p : V) (n : V) :
    ContactKinematic V := { k with side2 := .plane f p n }

def set_line1 (k : ContactKinematic V) (f : FeatureId) (p : V) (d : V) (c : List V) :
    ContactKinematic V := { k with side1 := .line f p d c }

def set_line2 (k : ContactKinematic V) (f : FeatureId) (p : V) (d : V) (c : List V) :
    ContactKinematic V := { k with side2 := .line f p d c }

def set_dilation1 (k : ContactKinematic V) (r : ℝ) : ContactKinematic V :=
  { k with dilation1 := r }

def set_dilation2 (k : ContactKinematic V) (r : ℝ) : ContactKinematic V :=
  { k with dilation2 := r }

end ContactKinematic

/-- The f64 machine epsilon `2⁻⁵²`, the value of
`P::Real::default_epsilon()` used as degeneracy threshold. -/
noncomputable def defaultEpsilon : ℝ := ((2 : ℝ) ^ (52 : ℕ))⁻¹

/-- Modelled from the external nalgebra `Unit::try_new_and_get(v, min_norm)`:
returns the normalized vector and its norm when the norm exceeds `min_norm`,
`none` otherwise. -/
noncomputable def tryNewAndGet (v : V) (min_norm : ℝ) : Option (V × ℝ) :=
  if min_norm < ‖v‖ then some (‖v‖⁻¹ • v, ‖v‖) else none

/-- Lines 63–73 of the generator: the depth and normal computed from the
inside/outside classification, the unit displacement direction `dir` and the
projection distance `dist`:
inside → `(dist + radius, -dir)`; outside → `(-dist + radius, dir)`. -/
def ballDepthNormal (isInside : Bool) (dir : V) (dist radius : ℝ) : ℝ × V :=
  if isInside then (dist + radius, -dir) else (-dist + radius, dir)

/-- An entry of the contact manifold: the contact plus its kinematic record. -/
abbrev ManifoldEntry (V : Type) := Contact V × ContactKinematic V

/-- Rust `BallConvexPolyhedronManifoldGenerator::do_update`.  Takes the two poses,
the two shapes, the prediction margin `prediction.linear`, the `flip` flag and
the manifold contents before the call; returns the manifold contents after the
call together with the boolean return value, or `none` when the call panics
(the `FeatureId::Unknown` arm).  `save_cache_and_clear` empties the manifold,
`push` appends the synthesized entry. -/
noncomputable def do_update (m1 : Iso V) (a : Shape V) (m2 : Iso V) (b : Shape V)
    (prediction : ℝ) (flip : Bool) (manifold : List (ManifoldEntry V)) :
    Option (List (ManifoldEntry V) × Bool) :=
  match a.ball, b.pq, b.cp with
  | some radius, some pq2, some cp2 =>
    -- self.contact_manifold.save_cache_and_clear(id_alloc);
    let ball_center := m1.translation
    let pf := pq2 m2 ball_center
    let proj := pf.1
    let f2 := pf.2
    let world2 := proj.point
    let dpt := world2 - ball_center
    match tryNewAndGet dpt defaultEpsilon with
    | some dn =>
      let dir := dn.1
      let dist := dn.2
      let depth := (ballDepthNormal proj.is_inside dir dist radius).1
      let normal := (ballDepthNormal proj.is_inside dir dist radius).2
      if -prediction ≤ depth then
        let f1 := FeatureId.face 0
        let world1 := ball_center + radius • normal
        let contact : Contact V :=
          if flip = false then ⟨world1, world2, normal, depth⟩
          else ⟨world2, world1, -normal, depth⟩
        let kin :=
          if flip = false then
            (ContactKinematic.new.set_point1 f1 0 []).set_dilation1 radius
          else
            (ContactKinematic.new.set_point2 f1 0 []).set_dilation2 radius
        let local2 := m2.invTransform world2
        let n2 := cp2.normal_cone f2
        match f2 with
        | .face _ =>
          -- n2.generators()[0]: indexing panics when the cone has no generators
          match n2.head? with
          | some g =>
            let kin' := if flip = false then kin.set_plane2 f2 local2 g
                        else kin.set_plane1 f2 local2 g
            some ([(contact, kin')], true)
          | none => none
        | .edge _ =>
          let e := cp2.edge f2
          let edir := ‖e.2 - e.1‖⁻¹ • (e.2 - e.1)
          let kin' := if flip = false then kin.set_line2 f2 local2 edir n2
                      else kin.set_line1 f2 local2 edir n2
          some ([(contact, kin')], true)
        | .vertex _ =>
          let kin' := if flip = false then kin.set_point2 f2 local2 n2
                      else kin.set_point1 f2 local2 n2
          some ([(contact, kin')], true)
        | .unknown => none -- panic!("Feature id cannot be unknown.")
      else
        some ([], true)
    | none =>
      -- unhandled case where the ball center is exactly on the polyhedron surface
      some ([], true)
  | _, _, _ => some (manifold, false)

/-- The persistent state of the generator that `update` mutates: the manifold
and the two subshape ids. -/
structure GenState (V : Type) where
  manifold : List (ManifoldEntry V)
  sub1 : ℕ
  sub2 : ℕ

/-- Rust `ContactGenerator::update` for the ball-vs-convex-polyhedron generator:
records the subshape ids, then dispatches to `do_update` in argument order
when `flip = false` and in swapped order (with `flip = true`) otherwise. -/
noncomputable def update (flip : Bool) (s : GenState V) (id1 id2 : ℕ)
    (m1 : Iso V) (a : Shape V) (m2 : Iso V) (b : Shape V) (prediction : ℝ) :
    Option (GenState V × Bool) :=
  let s := { s with sub1 := id1, sub2 := id2 }
  if flip = false then
    (do_update m1 a m2 b prediction false s.manifold).map
      (fun r => ({ s with manifold := r.1 }, r.2))
  else
    (do_update m2 b m1 a prediction true s.manifold).map
      (fun r => ({ s with manifold := r.1 }, r.2))

end BallGen

/-! ### `src/query/algorithms/voronoi_simplex2.rs`

The 2D simplex is embedded with exact rational coordinates (`ℚ × ℚ`), the
idealization of the code's generic `Real` scalar.  Fixed-size Rust arrays
become functions out of `Fin 3` / `Fin 2`; out-of-bounds writes and failed
asserts become a `none` result. -/

/-- A 2D point, mirroring `Point<N>` with exact rational coordinates. -/
abbrev Pt := ℚ × ℚ

/-- Dot product of two 2D points/vectors. -/
def dotp (u v : Pt) : ℚ := u.1 * v.1 + u.2 * v.2

/-- Componentwise addition. -/
def addp (u v : Pt) : Pt := (u.1 + v.1, u.2 + v.2)

/-- Componentwise subtraction. -/
def subp (u v : Pt) : Pt := (u.1 - v.1, u.2 - v.2)

/-- Scalar multiplication. -/
def smulp (t : ℚ) (u : Pt) : Pt := (t * u.1, t * u.2)

/-- Componentwise negation. -/
def negp (u : Pt) : Pt := (-u.1, -u.2)

/-- Rust `Point::origin()`. -/
def originPt : Pt := (0, 0)

/-- Rust `SegmentPointLocation`: where on a segment a projection landed. -/
inductive SegLoc where
  | onVertex (i : ℕ)
  | onEdge (w : ℚ × ℚ)
deriving DecidableEq, Repr

/-- Rust `TrianglePointLocation`: where on a (solid) triangle a projection landed.
`onSolid` is the interior case of a solid 2D query. -/
inductive TriLoc where
  | onVertex (i : ℕ)
  | onEdge (i : ℕ) (w : ℚ × ℚ)
  | onSolid
deriving DecidableEq, Repr

/-- Modelled from the spec: the segment closest-point routine
(`Segment::project_point_with_location` at the origin), which is repository
code not under `src/`.  Computes the closest point of the origin on the
segment `[a, b]` and classifies it as an endpoint or an interior edge point
with its barycentric coordinates. -/
def segmentProjectOrigin (a b : Pt) : Pt × SegLoc :=
  let ab := subp b a
  let ap := negp a
  let t := dotp ap ab / dotp ab ab
  if t ≤ 0 then (a, .onVertex 0)
  else if 1 ≤ t then (b, .onVertex 1)
  else (addp a (smulp t ab), .onEdge (1 - t, t))

/-- Modelled from the spec: the triangle closest-point routine
(`Triangle::project_point_with_location` at the origin, solid query), which is
repository code not under `src/`.  Standard Voronoi-region classification:
the closest point of the origin on the solid triangle `a b c` is a vertex, a
point of one of the three edges (0 = ab, 1 = bc, 2 = ac, with the barycentric
coordinates of the two edge endpoints in that order), or the origin itself
when the origin is inside the triangle. -/
def triangleProjectOrigin (a b c : Pt) : Pt × TriLoc :=
  let ab := subp b a
  let ac := subp c a
  let ap := negp a
  let d1 := dotp ab ap
  let d2 := dotp ac ap
  if d1 ≤ 0 ∧ d2 ≤ 0 then (a, .onVertex 0)
  else
    let bp := negp b
    let d3 := dotp ab bp
    let d4 := dotp ac bp
    if 0 ≤ d3 ∧ d4 ≤ d3 then (b, .onVertex 1)
    else
      let vc := d1 * d4 - d3 * d2
      if vc ≤ 0 ∧ 0 ≤ d1 ∧ d3 ≤ 0 then
        let v := d1 / (d1 - d3)
        (addp a (smulp v ab), .onEdge 0 (1 - v, v))
      else
        let cq := negp c
        let d5 := dotp ab cq
        let d6 := dotp ac cq
        if 0 ≤ d6 ∧ d5 ≤ d6 then (c, .onVertex 2)
        else
          let vb := d5 * d2 - d1 * d6
          if vb ≤ 0 ∧ 0 ≤ d2 ∧ d6 ≤ 0 then
            let w := d2 / (d2 - d6)
            (addp a (smulp w ac), .onEdge 2 (1 - w, w))
          else
            let va := d3 * d6 - d5 * d4
            if va ≤ 0 ∧ 0 ≤ d4 - d3 ∧ 0 ≤ d5 - d6 then
              let w := (d4 - d3) / ((d4 - d3) + (d5 - d6))
              (addp b (smulp w (subp c b)), .onEdge 1 (1 - w, w))
            else
              (originPt, .onSolid)

/-- Rust `VoronoiSimplex2<N, T>`: up to three vertices with payloads, the active
dimension, the projection coordinates, and the previous-iteration snapshot. -/
structure VoronoiSimplex2 (T : Type) where
  prev_vertices : Fin 3 → ℕ
  prev_dim : ℕ
  prev_proj : Fin 2 → ℚ
  vertices : Fin 3 → Pt
  data : Fin 3 → T
  proj : Fin 2 → ℚ
  dim : ℕ

namespace VoronoiSimplex2

variable {T : Type}

/-- Swap entries `i` and `j` of a length-3 array. -/
def swapFn {α : Type} (f : Fin 3 → α) (i j : Fin 3) : Fin 3 → α :=
  fun k => if k = i then f j else if k = j then f i else f k

/-- Rust `VoronoiSimplex2::swap`: swaps `vertices`, `data` and `prev_vertices`
at `i1`, `i2`. -/
def swapv (s : VoronoiSimplex2 T) (i j : Fin 3) : VoronoiSimplex2 T :=
  { s with
    vertices := swapFn s.vertices i j
    data := swapFn s.data i j
    prev_vertices := swapFn s.prev_vertices i j }

/-- Reading `self.vertices[i]` for a `usize` index (valid whenever `i < 3`; all
reachable states have `dim ≤ 2`, so the loops below stay in bounds). -/
def vertAt (s : VoronoiSimplex2 T) (i : ℕ) : Pt :=
  if h : i < 3 then s.vertices ⟨i, h⟩ else originPt

/-- The duplicate scan of `add_point`:
`for i in 0..self.dim + 1 { if self.vertices[i].coords == pt.coords { ... } }`. -/
def hasDup (s : VoronoiSimplex2 T) (pt : Pt) : Bool :=
  (List.range (s.dim + 1)).any fun i => decide (vertAt s i = pt)

/-- Rust `Simplex::add_point`: first overwrites the previous-iteration snapshot
(`prev_dim`, `prev_proj`, `prev_vertices`), then rejects exact duplicates
with `false`; otherwise increments `dim` and writes the new vertex and
payload at index `dim` (out-of-bounds when the incremented `dim` exceeds 2,
modelled as `none`). -/
def add_point (s : VoronoiSimplex2 T) (pt : Pt) (d : T) :
    Option (VoronoiSimplex2 T × Bool) :=
  let s' := { s with prev_dim := s.dim, prev_proj := s.proj,
                     prev_vertices := ![0, 1, 2] }
  if s'.hasDup pt then some (s', false)
  else if h : s'.dim + 1 < 3 then
    some ({ s' with
            dim := s'.dim + 1
            vertices := Function.update s'.vertices ⟨s'.dim + 1, h⟩ pt
            data := Function.update s'.data ⟨s'.dim + 1, h⟩ d }, true)
  else none

/-- Rust `Simplex::dimension`. -/
def dimension (s : VoronoiSimplex2 T) : ℕ := s.dim

/-- Rust `Simplex::prev_dimension`. -/
def prev_dimension (s : VoronoiSimplex2 T) : ℕ := s.prev_dim

/-- Rust `Simplex::project_origin_and_reduce`: computes the closest point of the
origin on the current simplex and reduces the simplex to the minimal
sub-simplex supporting it, returning the projection point and the new state
(`none` models the failed `assert!(self.dim == 2)` or an out-of-range
location index reaching `swap`). -/
def project_origin_and_reduce (s : VoronoiSimplex2 T) :
    Option (Pt × VoronoiSimplex2 T) :=
  if s.dim = 0 then
    some (s.vertices 0, { s with proj := Function.update s.proj 0 1 })
  else if s.dim = 1 then
    let pr := segmentProjectOrigin (s.vertices 0) (s.vertices 1)
    match pr.2 with
    | .onVertex 0 =>
      some (pr.1, { s with proj := Function.update s.proj 0 1, dim := 0 })
    | .onVertex 1 =>
      some (pr.1, { swapv s 0 1 with proj := Function.update s.proj 0 1, dim := 0 })
    | .onVertex _ => none -- unreachable!()
    | .onEdge w =>
      some (pr.1, { s with proj := ![w.1, w.2] })
  else if s.dim = 2 then
    let pr := triangleProjectOrigin (s.vertices 0) (s.vertices 1) (s.vertices 2)
    match pr.2 with
    | .onVertex i =>
      if h : i < 3 then
        some (pr.1, { swapv s 0 ⟨i, h⟩ with
                      proj := Function.update s.proj 0 1, dim := 0 })
      else none
    | .onEdge 0 w =>
      some (pr.1, { s with proj := ![w.1, w.2], dim := 1 })
    | .onEdge 1 w =>
      some (pr.1, { swapv s 0 2 with proj := ![w.2, w.1], dim := 1 })
    | .onEdge 2 w =>
      some (pr.1, { swapv s 1 2 with proj := ![w.1, w.2], dim := 1 })
    | _ =>
      -- the `_ => {}` arm: no state change
      some (pr.1, s)
  else none -- assert!(self.dim == 2) fails

end VoronoiSimplex2

/-! ### `src/narrow/one_shot_contact_manifold_generator.rs`

The incremental sub-detector (`IncrementalContactManifoldGenerator`) and the
nalgebra rotation/basis helpers are repository/library code not under `src/`;
they are taken as abstract operation records.  The hybrid generator's own
control flow is embedded exactly.  In addition to the resulting sub-detector
state, the embedding returns the list of perturbed poses passed to
`add_new_contacts` (the perturbation probes), so that "no probes were
performed" is observable. -/

/-- The single representative collision returned by `get_sub_collision`;
only its `normal` is consumed by the one-shot expansion. -/
structure SubCollision (LV : Type) where
  normal : LV

/-- The interface of the incremental sub-detector consumed by the one-shot
generator.  Modelled from the spec: `get_sub_collision` is the query for "one
representative colliding point pair ... at the given poses" and does not
mutate the detector state ("If none found, remain Empty"). -/
structure SubDetector (σ M G1 G2 LV : Type) where
  num_coll : σ → ℕ
  get_sub_collision : σ → M → G1 → M → G2 → Option (SubCollision LV)
  add_new_contacts : σ → M → G1 → M → G2 → σ
  update_contacts : σ → M → M → σ
  update : σ → M → G1 → M → G2 → σ

/-- Modelled from the spec: the nalgebra geometric helpers used by the
one-shot expansion — an orthonormal basis of the subspace perpendicular to
the normal, the cross product, scaling of the rotation axis by `0.01`,
axis negation, and `rotated_wrt_center`. -/
structure PerturbGeometry (M LV AV : Type) where
  orthonormal_subspace_basis : LV → List LV
  cross : LV → LV → AV
  scale001 : AV → AV
  negAxis : AV → AV
  rotated_wrt_center : M → AV → M

/-- Rust `OneShotContactManifoldGenerator::update`, instrumented with the list of
perturbed poses handed to `add_new_contacts`: while the manifold is empty,
query `get_sub_collision`; on `None` do nothing; on `Some` run the two
opposite perturbation probes for every basis direction and then
`update_contacts` against the original poses.  While the manifold is
non-empty, delegate to the incremental sub-detector's `update`. -/
def oneShotUpdate {σ M G1 G2 LV AV : Type}
    (G : PerturbGeometry M LV AV) (D : SubDetector σ M G1 G2 LV)
    (s : σ) (m1 : M) (g1 : G1) (m2 : M) (g2 : G2) : σ × List M :=
  if D.num_coll s = 0 then
    match D.get_sub_collision s m1 g1 m2 g2 with
    | some coll =>
      let r := (G.orthonormal_subspace_basis coll.normal).foldl
        (fun (acc : σ × List M) b =>
          let rot_axis := G.scale001 (G.cross coll.normal b)
          let rm1 := G.rotated_wrt_center m1 rot_axis
          let s1 := D.add_new_contacts acc.1 rm1 g1 m2 g2
          let rm1' := G.rotated_wrt_center m1 (G.negAxis rot_axis)
          let s2 := D.add_new_contacts s1 rm1' g1 m2 g2
          (s2, acc.2 ++ [rm1, rm1'])) (s, [])
      (D.update_contacts r.1 m1 m2, r.2)
    | none => (s, [])
  else (D.update s m1 g1 m2 g2, [])

/-! ### Claim theorems -/

/-- Claim C7: for every state of the one-shot hybrid generator, if the
manifold is empty and the single-point sub-detector reports no collision at
the given poses, the update performs no perturbation probes and the manifold
remains empty (the state is unchanged); if the manifold is non-empty, the
update is exactly the incremental sub-detector's update. -/
theorem oneShotUpdate_empty_skip_and_populated_delegates
    {σ M G1 G2 LV AV : Type}
    (G : PerturbGeometry M LV AV) (D : SubDetector σ M G1 G2 LV)
    (s : σ) (m1 : M) (g1 : G1) (m2 : M) (g2 : G2) :
    (D.num_coll s = 0 → D.get_sub_collision s m1 g1 m2 g2 = none →
      oneShotUpdate G D s m1 g1 m2 g2 = (s, []))
    ∧ (D.num_coll s ≠ 0 →
      oneShotUpdate G D s m1 g1 m2 g2 = (D.update s m1 g1 m2 g2, [])) := by
  constructor
  · intro h0 hn
    simp [oneShotUpdate, h0, hn]
  · intro h0
    simp [oneShotUpdate, h0]

/-- A trivially instantiated perturbation geometry, for concrete evaluation. -/
def trivialGeom : PerturbGeometry Unit Unit Unit :=
  ⟨fun _ => [], fun _ _ => (), id, id, fun m _ => m⟩

/-- A concrete sub-detector over state `ℕ` (the number of active contacts)
that never reports a sub-collision and bumps the count on `update`. -/
def countingSubDetector : SubDetector ℕ Unit Unit Unit Unit :=
  ⟨id, fun _ _ _ _ _ => none, fun s _ _ _ _ => s, fun s _ _ => s,
   fun s _ _ _ _ => s + 1⟩

theorem oneShotUpdate_empty_skip_and_populated_delegates_witness :
    (countingSubDetector.num_coll 0 = 0 ∧
      countingSubDetector.get_sub_collision 0 () () () () = none ∧
      oneShotUpdate trivialGeom countingSubDetector 0 () () () () = (0, [])) ∧
    (countingSubDetector.num_coll 1 ≠ 0 ∧
      oneShotUpdate trivialGeom countingSubDetector 1 () () () () =
        (countingSubDetector.update 1 () () () (), [])) :=
  ⟨⟨rfl, rfl,
    (oneShotUpdate_empty_skip_and_populated_delegates trivialGeom
      countingSubDetector 0 () () () ()).1 rfl rfl⟩,
   ⟨by decide,
    (oneShotUpdate_empty_skip_and_populated_delegates trivialGeom
      countingSubDetector 1 () () () ()).2 (by decide)⟩⟩

/-- Claim C10: every returning `add_point` call — including a rejecting one —
overwrites the previous-iteration snapshot with the pre-call dimension and
projection coordinates, and a rejecting call leaves the current dimension,
vertices, payloads and projection coordinates unchanged. -/
theorem add_point_snapshot_and_reject_frame {T : Type}
    (s : VoronoiSimplex2 T) (pt : Pt) (d : T)
    (s' : VoronoiSimplex2 T) (b : Bool)
    (h : s.add_point pt d = some (s', b)) :
    s'.prev_dimension = s.dimension ∧ s'.prev_proj = s.proj ∧
    (b = false → s'.dim = s.dim ∧ s'.vertices = s.vertices ∧
      s'.data = s.data ∧ s'.proj = s.proj) := by
  simp only [VoronoiSimplex2.add_point] at h
  split at h
  · injection h with h'
    injection h' with hs hb
    subst hs; subst hb
    exact ⟨rfl, rfl, fun _ => ⟨rfl, rfl, rfl, rfl⟩⟩
  · split at h
    · injection h with h'
      injection h' with hs hb
      subst hs; subst hb
      exact ⟨rfl, rfl, fun hb' => nomatch hb'⟩
    · exact Option.noConfusion h

/-- A concrete full (2-dimensional) simplex with vertices (0,0), (1,0),
(0,1). -/
def simplexFull : VoronoiSimplex2 Unit :=
  ⟨![0, 1, 2], 0, ![0, 0], ![(0, 0), (1, 0), (0, 1)], fun _ => (), ![0, 0], 2⟩

/-- The state `simplexFull.add_point (0,0) ()` leaves behind: only the
previous-iteration snapshot is overwritten. -/
def simplexSnap : VoronoiSimplex2 Unit :=
  { simplexFull with prev_dim := 2, prev_proj := ![0, 0],
                     prev_vertices := ![0, 1, 2] }

theorem add_point_snapshot_and_reject_frame_witness :
    simplexSnap.prev_dimension = simplexFull.dimension ∧
    simplexSnap.prev_proj = simplexFull.proj ∧
    (false = false → simplexSnap.dim = simplexFull.dim ∧
      simplexSnap.vertices = simplexFull.vertices ∧
      simplexSnap.data = simplexFull.data ∧
      simplexSnap.proj = simplexFull.proj) :=
  add_point_snapshot_and_reject_frame simplexFull (0, 0) () simplexSnap false
    rfl

/-- Claim C5 counterexample: on the full 2-dimensional simplex, `add_point`
with the fresh point (1,1) hits the out-of-bounds write (a panic), instead of
returning `true` with the dimension capped at 2 as the claim states. -/
theorem add_point_full_simplex_panics :
    simplexFull.hasDup (1, 1) = false ∧ simplexFull.dim = 2 ∧
    simplexFull.add_point (1, 1) () = none :=
  ⟨rfl, rfl, rfl⟩

/-- Claim C5 (amended): `add_point` rejects a coordinate-duplicate point with
`false`, touching only the previous-iteration snapshot; a fresh point on a
simplex of dimension `< 2` is appended with the dimension incremented and
`true` returned; a fresh point on an already 2-dimensional simplex is an
out-of-bounds write (panic), not a capped append. -/
theorem add_point_cases {T : Type} (s : VoronoiSimplex2 T) (pt : Pt) (d : T) :
    (s.hasDup pt = true →
      s.add_point pt d =
        some ({ s with prev_dim := s.dim, prev_proj := s.proj,
                       prev_vertices := ![0, 1, 2] }, false))
    ∧ (s.hasDup pt = false → s.dim < 2 →
      ∃ s', s.add_point pt d = some (s', true) ∧
        s'.dimension = s.dimension + 1 ∧ s'.vertAt (s.dim + 1) = pt)
    ∧ (s.hasDup pt = false → 2 ≤ s.dim → s.add_point pt d = none) := by
  refine ⟨fun hdup => ?_, fun hnd hlt => ?_, fun hnd hge => ?_⟩
  · simp only [VoronoiSimplex2.add_point]
    split
    · rfl
    · rename_i hq
      exact absurd hdup hq
  · simp only [VoronoiSimplex2.add_point]
    split
    · rename_i hq
      exact Bool.noConfusion (hnd.symm.trans hq)
    · have h3 : s.dim + 1 < 3 := by omega
      rw [dif_pos h3]
      refine ⟨_, rfl, rfl, ?_⟩
      show VoronoiSimplex2.vertAt _ (s.dim + 1) = pt
      rw [VoronoiSimplex2.vertAt, dif_pos h3]
      exact Function.update_same _ _ _
  · simp only [VoronoiSimplex2.add_point]
    split
    · rename_i hq
      exact Bool.noConfusion (hnd.symm.trans hq)
    · rw [dif_neg (by omega)]

/-- A concrete 1-dimensional simplex with active vertices (1,0), (0,1). -/
def simplexOne : VoronoiSimplex2 Unit :=
  ⟨![0, 1, 2], 0, ![0, 0], ![(1, 0), (0, 1), (0, 0)], fun _ => (), ![0, 0], 1⟩

theorem add_point_cases_witness :
    simplexOne.hasDup (5, 5) = false ∧ simplexOne.dim < 2 ∧
    ∃ s', simplexOne.add_point (5, 5) () = some (s', true) ∧
      s'.dimension = simplexOne.dimension + 1 ∧ s'.vertAt 2 = (5, 5) :=
  ⟨rfl, by decide, (add_point_cases simplexOne (5, 5) ()).2.1 rfl (by decide)⟩

/-- Addition of 2D points is commutative. -/
theorem addp_comm (u v : Pt) : addp u v = addp v u := by
  simp only [addp, Prod.mk.injEq]
  constructor <;> ring

/-- The vertex classification of the triangle closest-point routine returns
the matching vertex as the projection point. -/
theorem triangleProjectOrigin_onVertex (a b c p : Pt) (i : ℕ)
    (h : triangleProjectOrigin a b c = (p, .onVertex i)) :
    (i = 0 ∧ p = a) ∨ (i = 1 ∧ p = b) ∨ (i = 2 ∧ p = c) := by
  simp only [triangleProjectOrigin] at h
  split_ifs at h <;> simp_all

/-- The edge classification of the triangle closest-point routine returns an
edge index in {0, 1, 2} together with barycentric coordinates of the edge's
two endpoints (in the order ab, bc, ac) whose combination is the projection
point. -/
theorem triangleProjectOrigin_onEdge (a b c p : Pt) (e : ℕ) (w : ℚ × ℚ)
    (h : triangleProjectOrigin a b c = (p, .onEdge e w)) :
    (e = 0 ∧ addp (smulp w.1 a) (smulp w.2 b) = p) ∨
    (e = 1 ∧ addp (smulp w.1 b) (smulp w.2 c) = p) ∨
    (e = 2 ∧ addp (smulp w.1 a) (smulp w.2 c) = p) := by
  simp only [triangleProjectOrigin] at h
  split_ifs at h <;>
    simp only [Prod.mk.injEq, TriLoc.onEdge.injEq, reduceCtorEq, and_false,
      false_and, and_true] at h
  · obtain ⟨hp, he, hw⟩ := h
    refine Or.inl ⟨he.symm, ?_⟩
    rw [← hw, ← hp]
    simp only [addp, smulp, subp, Prod.mk.injEq]
    constructor <;> ring
  · obtain ⟨hp, he, hw⟩ := h
    refine Or.inr (Or.inr ⟨he.symm, ?_⟩)
    rw [← hw, ← hp]
    simp only [addp, smulp, subp, Prod.mk.injEq]
    constructor <;> ring
  · obtain ⟨hp, he, hw⟩ := h
    refine Or.inr (Or.inl ⟨he.symm, ?_⟩)
    rw [← hw, ← hp]
    simp only [addp, smulp, subp, Prod.mk.injEq]
    constructor <;> ring

/-- Claim C6: on a 2-simplex, `project_origin_and_reduce` reduces to the
minimal sub-simplex supporting the closest point to the origin: a vertex
classification collapses to dimension 0 with that vertex in slot 0 and
projection weight 1 (the projection point being that vertex); an edge
classification collapses to dimension 1 with the edge's two vertices
remapped into slots 0 and 1 by the fixed per-edge remapping and the stored
weights combining the surviving vertices into the returned projection point;
the strictly-interior classification leaves the simplex (and its dimension 2)
unchanged. -/
theorem project_origin_and_reduce_dim2 {T : Type} (s : VoronoiSimplex2 T)
    (h2 : s.dim = 2) (p : Pt) (s' : VoronoiSimplex2 T)
    (hres : s.project_origin_and_reduce = some (p, s')) :
    (∀ i, (triangleProjectOrigin (s.vertices 0) (s.vertices 1)
        (s.vertices 2)).2 = .onVertex i →
      s'.dimension = 0 ∧ s'.proj 0 = 1 ∧
      ∃ h : i < 3, s'.vertices 0 = s.vertices ⟨i, h⟩ ∧ p = s.vertices ⟨i, h⟩)
    ∧ (∀ e w, (triangleProjectOrigin (s.vertices 0) (s.vertices 1)
        (s.vertices 2)).2 = .onEdge e w →
      s'.dimension = 1 ∧
      addp (smulp (s'.proj 0) (s'.vertices 0))
        (smulp (s'.proj 1) (s'.vertices 1)) = p ∧
      ((e = 0 ∧ s'.vertices 0 = s.vertices 0 ∧ s'.vertices 1 = s.vertices 1) ∨
       (e = 1 ∧ s'.vertices 0 = s.vertices 2 ∧ s'.vertices 1 = s.vertices 1) ∨
       (e = 2 ∧ s'.vertices 0 = s.vertices 0 ∧ s'.vertices 1 = s.vertices 2)))
    ∧ ((triangleProjectOrigin (s.vertices 0) (s.vertices 1)
        (s.vertices 2)).2 = .onSolid → s' = s ∧ s'.dimension = 2) := by
  simp only [VoronoiSimplex2.project_origin_and_reduce, h2] at hres
  norm_num at hres
  rcases htri : triangleProjectOrigin (s.vertices 0) (s.vertices 1)
      (s.vertices 2) with ⟨q, loc⟩
  rw [htri] at hres
  simp only at hres
  refine ⟨?_, ?_, ?_⟩
  · intro i hloc
    simp only at hloc
    subst hloc
    rcases triangleProjectOrigin_onVertex _ _ _ _ _ htri with
      ⟨rfl, rfl⟩ | ⟨rfl, rfl⟩ | ⟨rfl, rfl⟩ <;>
    · simp only at hres
      rw [dif_pos (by omega)] at hres
      injection hres with hres'
      injection hres' with hp hs
      subst hp
      subst hs
      refine ⟨rfl, Function.update_same (0 : Fin 2) 1 s.proj, by omega, ?_, rfl⟩
      simp [VoronoiSimplex2.swapv, VoronoiSimplex2.swapFn]
  · intro e w hloc
    simp only at hloc
    subst hloc
    rcases triangleProjectOrigin_onEdge _ _ _ _ _ _ htri with
      ⟨rfl, hcomb⟩ | ⟨rfl, hcomb⟩ | ⟨rfl, hcomb⟩ <;> simp only at hres
    · injection hres with hres'
      injection hres' with hp hs
      subst hp
      subst hs
      refine ⟨rfl, ?_, Or.inl ⟨rfl, rfl, rfl⟩⟩
      simpa using hcomb
    · injection hres with hres'
      injection hres' with hp hs
      subst hp
      subst hs
      refine ⟨rfl, ?_, Or.inr (Or.inl ⟨rfl, ?_, ?_⟩)⟩
      · show addp (smulp w.2 _) (smulp w.1 _) = q
        rw [addp_comm]
        simpa [VoronoiSimplex2.swapv, VoronoiSimplex2.swapFn] using hcomb
      · simp [VoronoiSimplex2.swapv, VoronoiSimplex2.swapFn]
      · simp [VoronoiSimplex2.swapv, VoronoiSimplex2.swapFn]
    · injection hres with hres'
      injection hres' with hp hs
      subst hp
      subst hs
      refine ⟨rfl, ?_, Or.inr (Or.inr ⟨rfl, ?_, ?_⟩)⟩
      · simpa [VoronoiSimplex2.swapv, VoronoiSimplex2.swapFn] using hcomb
      · simp [VoronoiSimplex2.swapv, VoronoiSimplex2.swapFn]
      · simp [VoronoiSimplex2.swapv, VoronoiSimplex2.swapFn]
  · intro hloc
    simp only at hloc
    subst hloc
    simp only at hres
    injection hres with hres'
    injection hres' with hp hs
    subst hp
    subst hs
    exact ⟨rfl, h2⟩

/-- A concrete 2-simplex whose closest point to the origin is its vertex 0. -/
def simplexTri : VoronoiSimplex2 Unit :=
  ⟨![0, 1, 2], 0, ![0, 0], ![(1, 1), (3, 1), (1, 3)], fun _ => (), ![0, 0], 2⟩

/-- The reduced state `simplexTri.project_origin_and_reduce` produces. -/
def simplexTriRed : VoronoiSimplex2 Unit :=
  { VoronoiSimplex2.swapv simplexTri 0 0 with
    proj := Function.update simplexTri.proj 0 1, dim := 0 }

theorem triangleProjectOrigin_simplexTri :
    triangleProjectOrigin (simplexTri.vertices 0) (simplexTri.vertices 1)
      (simplexTri.vertices 2) = ((1, 1), TriLoc.onVertex 0) := by
  norm_num [simplexTri, triangleProjectOrigin, dotp, subp, negp, addp, smulp,
    originPt]

theorem project_origin_and_reduce_simplexTri :
    simplexTri.project_origin_and_reduce = some ((1, 1), simplexTriRed) := by
  simp only [VoronoiSimplex2.project_origin_and_reduce,
    triangleProjectOrigin_simplexTri]
  norm_num [simplexTri, simplexTriRed]

theorem project_origin_and_reduce_dim2_witness :
    simplexTri.dim = 2 ∧
    (simplexTriRed.dimension = 0 ∧ simplexTriRed.proj 0 = 1 ∧
      ∃ h : 0 < 3, simplexTriRed.vertices 0 = simplexTri.vertices ⟨0, h⟩ ∧
        ((1 : ℚ), (1 : ℚ)) = simplexTri.vertices ⟨0, h⟩) :=
  ⟨rfl,
   (project_origin_and_reduce_dim2 simplexTri rfl (1, 1) simplexTriRed
     project_origin_and_reduce_simplexTri).1 0
     (by rw [triangleProjectOrigin_simplexTri])⟩

section BallGenLemmas

variable {V : Type} [NormedAddCommGroup V] [NormedSpace ℝ V]
variable {m1 m2 : Iso V} {a b : Shape V} {pred : ℝ} {flip : Bool}
variable {man : List (ManifoldEntry V)} {radius : ℝ}
variable {pq2 : Iso V → V → PointProjection V × FeatureId} {cp2 : CPQueries V}
variable {proj : PointProjection V} {f2 : FeatureId}

theorem tryNewAndGet_eq_some {v : V} {e : ℝ} {dn : V × ℝ}
    (h : tryNewAndGet v e = some dn) : e < ‖v‖ ∧ dn = (‖v‖⁻¹ • v, ‖v‖) := by
  unfold tryNewAndGet at h
  split_ifs at h with hc
  exact ⟨hc, (Option.some.inj h).symm⟩

theorem tryNewAndGet_of_lt {v : V} {e : ℝ} (h : e < ‖v‖) :
    tryNewAndGet v e = some (‖v‖⁻¹ • v, ‖v‖) := by
  unfold tryNewAndGet
  rw [if_pos h]

theorem tryNewAndGet_of_not_lt {v : V} {e : ℝ} (h : ¬ e < ‖v‖) :
    tryNewAndGet v e = none := by
  unfold tryNewAndGet
  rw [if_neg h]

/-- When the shapes mismatch, `do_update` leaves the manifold untouched and
returns `false`. -/
theorem do_update_mismatch
    (h : a.ball = none ∨ b.pq = none ∨ b.cp = none) :
    do_update m1 a m2 b pred flip man = some (man, false) := by
  rcases hb : a.ball with _ | radius <;>
    rcases hpq : b.pq with _ | pq2 <;>
      rcases hcp : b.cp with _ | cp2 <;>
        simp_all [do_update]

/-- Matched shapes, degenerate displacement: the manifold is cleared and no
contact is emitted. -/
theorem do_update_degenerate
    (hb : a.ball = some radius) (hpq : b.pq = some pq2) (hcp : b.cp = some cp2)
    (hpf : pq2 m2 m1.translation = (proj, f2))
    (hdeg : tryNewAndGet (proj.point - m1.translation) defaultEpsilon = none) :
    do_update m1 a m2 b pred flip man = some ([], true) := by
  simp only [do_update, hb, hpq, hcp, hpf, hdeg]

/-- Matched shapes, non-degenerate displacement, depth below the speculative
margin: the manifold is cleared and no contact is emitted. -/
theorem do_update_no_emission
    (hb : a.ball = some radius) (hpq : b.pq = some pq2) (hcp : b.cp = some cp2)
    (hpf : pq2 m2 m1.translation = (proj, f2)) {dn : V × ℝ}
    (hdn : tryNewAndGet (proj.point - m1.translation) defaultEpsilon = some dn)
    (hdepth : ¬ -pred ≤ (ballDepthNormal proj.is_inside dn.1 dn.2 radius).1) :
    do_update m1 a m2 b pred flip man = some ([], true) := by
  simp only [do_update, hb, hpq, hcp, hpf, hdn]
  rw [if_neg hdepth]

/-- Matched shapes, non-degenerate displacement, admissible depth, Unknown
feature: the call panics. -/
theorem do_update_unknown_panics
    (hb : a.ball = some radius) (hpq : b.pq = some pq2) (hcp : b.cp = some cp2)
    (hpf : pq2 m2 m1.translation = (proj, FeatureId.unknown)) {dn : V × ℝ}
    (hdn : tryNewAndGet (proj.point - m1.translation) defaultEpsilon = some dn)
    (hdepth : -pred ≤ (ballDepthNormal proj.is_inside dn.1 dn.2 radius).1) :
    do_update m1 a m2 b pred flip man = none := by
  simp only [do_update, hb, hpq, hcp, hpf, hdn]
  rw [if_pos hdepth]

/-- Matched shapes, non-degenerate displacement, admissible depth, Face
feature whose normal cone has no generators: the `n2.generators()[0]`
indexing panics. -/
theorem do_update_face_cone_panics {i : ℕ}
    (hb : a.ball = some radius) (hpq : b.pq = some pq2) (hcp : b.cp = some cp2)
    (hpf : pq2 m2 m1.translation = (proj, FeatureId.face i)) {dn : V × ℝ}
    (hdn : tryNewAndGet (proj.point - m1.translation) defaultEpsilon = some dn)
    (hdepth : -pred ≤ (ballDepthNormal proj.is_inside dn.1 dn.2 radius).1)
    (hcone : cp2.normal_cone (FeatureId.face i) = []) :
    do_update m1 a m2 b pred flip man = none := by
  simp only [do_update, hb, hpq, hcp, hpf, hdn, hcone, List.head?_nil]
  rw [if_pos hdepth]

/-- Matched shapes, non-degenerate displacement, admissible depth, known
feature (with a non-empty normal cone when it is a face): exactly one
contact is pushed, built from the computed depth and normal, with the sides
and normal flipped when `flip` is set. -/
theorem do_update_emission
    (hb : a.ball = some radius) (hpq : b.pq = some pq2) (hcp : b.cp = some cp2)
    (hpf : pq2 m2 m1.translation = (proj, f2)) {dn : V × ℝ}
    (hdn : tryNewAndGet (proj.point - m1.translation) defaultEpsilon = some dn)
    (hdepth : -pred ≤ (ballDepthNormal proj.is_inside dn.1 dn.2 radius).1)
    (hf2 : f2 ≠ FeatureId.unknown)
    (hcone : ∀ i, f2 = FeatureId.face i → cp2.normal_cone f2 ≠ []) :
    ∃ kin : ContactKinematic V,
      do_update m1 a m2 b pred flip man =
        some ([((if flip = false then
            (⟨m1.translation +
                radius • (ballDepthNormal proj.is_inside dn.1 dn.2 radius).2,
              proj.point,
              (ballDepthNormal proj.is_inside dn.1 dn.2 radius).2,
              (ballDepthNormal proj.is_inside dn.1 dn.2 radius).1⟩ : Contact V)
          else
            ⟨proj.point,
              m1.translation +
                radius • (ballDepthNormal proj.is_inside dn.1 dn.2 radius).2,
              -(ballDepthNormal proj.is_inside dn.1 dn.2 radius).2,
              (ballDepthNormal proj.is_inside dn.1 dn.2 radius).1⟩), kin)],
          true) := by
  simp only [do_update, hb, hpq, hcp, hpf, hdn]
  rw [if_pos hdepth]
  cases f2 with
  | face i =>
    obtain ⟨g, gs, hgs⟩ := List.exists_cons_of_ne_nil (hcone i rfl)
    simp only [hgs, List.head?_cons]
    exact ⟨_, rfl⟩
  | edge i => exact ⟨_, rfl⟩
  | vertex i => exact ⟨_, rfl⟩
  | unknown => exact absurd rfl hf2

theorem tryNewAndGet_eq_none_iff {v : V} {e : ℝ} :
    tryNewAndGet v e = none ↔ ¬ e < ‖v‖ := by
  unfold tryNewAndGet
  split_ifs with hc <;> simp [hc]

theorem ballDepthNormal_fst (i : Bool) (d : V) (t r : ℝ) :
    (ballDepthNormal i d t r).1 = if i then t + r else -t + r := by
  cases i <;> rfl

theorem defaultEpsilon_pos : (0 : ℝ) < defaultEpsilon := by
  norm_num [defaultEpsilon]

/-- Claim C1: for a non-degenerate displacement from the ball center `c` to
its projection `w2` (a `Unit::try_new_and_get` success `dn`), the generator's
depth/normal computation yields: inside classification → depth is the
projection distance plus the radius and the normal is the negated unit
displacement direction; outside classification → depth is the radius minus
the projection distance and the normal is the unit displacement direction. -/
theorem ballDepthNormal_inside_outside (c w2 : V) (radius : ℝ) (dn : V × ℝ)
    (h : tryNewAndGet (w2 - c) defaultEpsilon = some dn) :
    (ballDepthNormal true dn.1 dn.2 radius).1 = ‖w2 - c‖ + radius ∧
    (ballDepthNormal true dn.1 dn.2 radius).2 = -(‖w2 - c‖⁻¹ • (w2 - c)) ∧
    (ballDepthNormal false dn.1 dn.2 radius).1 = radius - ‖w2 - c‖ ∧
    (ballDepthNormal false dn.1 dn.2 radius).2 = ‖w2 - c‖⁻¹ • (w2 - c) := by
  obtain ⟨-, rfl⟩ := tryNewAndGet_eq_some h
  refine ⟨rfl, rfl, by simp [ballDepthNormal]; ring, rfl⟩

theorem ballDepthNormal_inside_outside_witness :
    (ballDepthNormal true ((1 : ℝ), (2 : ℝ)).1 ((1 : ℝ), (2 : ℝ)).2 3).1 =
      ‖(2 : ℝ) - 0‖ + 3 ∧
    (ballDepthNormal true ((1 : ℝ), (2 : ℝ)).1 ((1 : ℝ), (2 : ℝ)).2 3).2 =
      -(‖(2 : ℝ) - 0‖⁻¹ • ((2 : ℝ) - 0)) ∧
    (ballDepthNormal false ((1 : ℝ), (2 : ℝ)).1 ((1 : ℝ), (2 : ℝ)).2 3).1 =
      3 - ‖(2 : ℝ) - 0‖ ∧
    (ballDepthNormal false ((1 : ℝ), (2 : ℝ)).1 ((1 : ℝ), (2 : ℝ)).2 3).2 =
      ‖(2 : ℝ) - 0‖⁻¹ • ((2 : ℝ) - 0) :=
  ballDepthNormal_inside_outside (0 : ℝ) 2 3 (1, 2) (by
    rw [tryNewAndGet_of_lt (by norm_num [defaultEpsilon, Real.norm_eq_abs])]
    norm_num [Real.norm_eq_abs])

/-- Claim C9 (amended): during contact synthesis (matched shapes,
non-degenerate displacement, depth within the speculative margin),
`do_update` aborts fatally if and only if the feature id returned by the
point projection is Unknown, or it is a Face feature whose normal cone has
no generators (the `n2.generators()[0]` index panic); for every Edge or
Vertex feature, and every Face feature with a non-empty normal cone, no
abort occurs. -/
theorem do_update_panics_iff_unknown_or_empty_face_cone
    (hb : a.ball = some radius) (hpq : b.pq = some pq2) (hcp : b.cp = some cp2)
    (hpf : pq2 m2 m1.translation = (proj, f2)) {dn : V × ℝ}
    (hdn : tryNewAndGet (proj.point - m1.translation) defaultEpsilon = some dn)
    (hdepth : -pred ≤ (ballDepthNormal proj.is_inside dn.1 dn.2 radius).1) :
    (do_update m1 a m2 b pred flip man = none ↔
      (f2 = FeatureId.unknown ∨
        ∃ i, f2 = FeatureId.face i ∧ cp2.normal_cone f2 = [])) := by
  constructor
  · intro hnone
    by_cases hf2 : f2 = FeatureId.unknown
    · exact Or.inl hf2
    · by_cases hface : ∃ i, f2 = FeatureId.face i ∧ cp2.normal_cone f2 = []
      · exact Or.inr hface
      · exfalso
        have hcone : ∀ i, f2 = FeatureId.face i → cp2.normal_cone f2 ≠ [] :=
          fun i hi hnil => hface ⟨i, hi, hnil⟩
        obtain ⟨kin, heq⟩ :=
          do_update_emission hb hpq hcp hpf hdn hdepth hf2 hcone
        rw [heq] at hnone
        cases hnone
  · intro h
    rcases h with h | ⟨i, rfl, hcone⟩
    · subst h
      exact do_update_unknown_panics hb hpq hcp hpf hdn hdepth
    · exact do_update_face_cone_panics hb hpq hcp hpf hdn hdepth hcone

end BallGenLemmas

/-- The identity pose at the origin, over `V = ℝ`. -/
noncomputable def isoZero : Iso ℝ := ⟨0, id⟩

/-- A unit ball shape over `V = ℝ`. -/
noncomputable def ballOne : Shape ℝ := ⟨some 1, none, none⟩

/-- A shape supporting point projection and convex-polyhedron queries whose
projection always answers with the given point, classification and feature
(normal cone `[1]`, edge endpoints `(0, 1)`), over `V = ℝ`. -/
noncomputable def polyProj (x : ℝ) (inside : Bool) (f : FeatureId) : Shape ℝ :=
  ⟨none, some fun _ _ => (⟨inside, x⟩, f), some ⟨fun _ => [1], fun _ => (0, 1)⟩⟩

/-- A shape whose projection query answers with the outside point `1` on a
Face feature whose normal cone has no generators, over `V = ℝ`. -/
noncomputable def polyFaceEmptyCone : Shape ℝ :=
  ⟨none, some fun _ _ => (⟨false, 1⟩, .face 0),
   some ⟨fun _ => [], fun _ => (0, 1)⟩⟩

/-- Claim C9 counterexample: with every contact-synthesis condition holding
(matched shapes, displacement `1` above the threshold, depth `0` within the
margin) and a Face — not Unknown — feature, the call still aborts, because
the feature's normal cone has no generators and `n2.generators()[0]`
panics. -/
theorem face_with_empty_cone_aborts :
    do_update isoZero ballOne isoZero polyFaceEmptyCone 0 false [] = none ∧
    FeatureId.face 0 ≠ FeatureId.unknown ∧
    defaultEpsilon < ‖(1 : ℝ) - 0‖ ∧
    -(0 : ℝ) ≤ 1 - ‖(1 : ℝ) - 0‖ := by
  have hdn : tryNewAndGet ((⟨false, (1 : ℝ)⟩ : PointProjection ℝ).point -
      isoZero.translation) defaultEpsilon = some (1, 1) := by
    rw [show (⟨false, (1 : ℝ)⟩ : PointProjection ℝ).point -
      isoZero.translation = 1 by norm_num [isoZero]]
    rw [tryNewAndGet_of_lt (by
      rw [norm_one]
      norm_num [defaultEpsilon])]
    norm_num
  refine ⟨do_update_face_cone_panics rfl rfl rfl rfl hdn
      (by norm_num [ballDepthNormal]) rfl, by simp, ?_, ?_⟩
  · rw [sub_zero, norm_one]
    norm_num [defaultEpsilon]
  · rw [sub_zero, norm_one]
    norm_num

theorem do_update_panics_iff_unknown_or_empty_face_cone_witness :
    (do_update isoZero ballOne isoZero polyFaceEmptyCone 0 false [] = none ↔
      (FeatureId.face 0 = FeatureId.unknown ∨
        ∃ i, FeatureId.face 0 = FeatureId.face i ∧
          (⟨fun _ => [], fun _ => (0, 1)⟩ : CPQueries ℝ).normal_cone
            (FeatureId.face 0) = [])) := by
  have hdn : tryNewAndGet ((⟨false, (1 : ℝ)⟩ : PointProjection ℝ).point -
      isoZero.translation) defaultEpsilon = some (1, 1) := by
    rw [show (⟨false, (1 : ℝ)⟩ : PointProjection ℝ).point -
      isoZero.translation = 1 by norm_num [isoZero]]
    rw [tryNewAndGet_of_lt (by
      rw [norm_one]
      norm_num [defaultEpsilon])]
    norm_num
  exact do_update_panics_iff_unknown_or_empty_face_cone rfl rfl rfl rfl hdn
    (by norm_num [ballDepthNormal])

section BallGenClaims

variable {V : Type} [NormedAddCommGroup V] [NormedSpace ℝ V]
variable {m1 m2 : Iso V} {a b : Shape V} {pred : ℝ} {flip : Bool}
variable {man : List (ManifoldEntry V)} {radius : ℝ}
variable {pq2 : Iso V → V → PointProjection V × FeatureId} {cp2 : CPQueries V}
variable {proj : PointProjection V} {f2 : FeatureId}

/-- Claim C8: `do_update` returns `false` — leaving the manifold untouched —
exactly when the shape capabilities do not match (no ball on the first side,
or no point-projection or convex-polyhedron interface on the second); every
completed call with matching capabilities returns `true`, whether or not a
contact was emitted. -/
theorem do_update_false_iff_capability_mismatch
    (m1 m2 : Iso V) (a b : Shape V) (pred : ℝ) (flip : Bool)
    (man : List (ManifoldEntry V)) :
    (do_update m1 a m2 b pred flip man = some (man, false) ↔
      (a.ball = none ∨ b.pq = none ∨ b.cp = none))
    ∧ (∀ l r', do_update m1 a m2 b pred flip man = some (l, r') →
        (r' = false ↔ (a.ball = none ∨ b.pq = none ∨ b.cp = none))) := by
  by_cases hmis : a.ball = none ∨ b.pq = none ∨ b.cp = none
  · have hres : do_update m1 a m2 b pred flip man = some (man, false) :=
      do_update_mismatch hmis
    rw [hres]
    constructor
    · exact iff_of_true rfl hmis
    · intro l r' h
      injection h with h'
      injection h' with h1 h2
      exact iff_of_true h2.symm hmis
  · push_neg at hmis
    obtain ⟨hb', hpq', hcp'⟩ := hmis
    obtain ⟨radius, hb⟩ := Option.ne_none_iff_exists'.mp hb'
    obtain ⟨pq2, hpq⟩ := Option.ne_none_iff_exists'.mp hpq'
    obtain ⟨cp2, hcp⟩ := Option.ne_none_iff_exists'.mp hcp'
    have hall : ∀ l r', do_update m1 a m2 b pred flip man = some (l, r') →
        r' = true := by
      intro l r' h
      rcases hpf : pq2 m2 m1.translation with ⟨proj, f2⟩
      rcases hdn : tryNewAndGet (proj.point - m1.translation) defaultEpsilon
        with _ | dn
      · rw [do_update_degenerate hb hpq hcp hpf hdn] at h
        injection h with h'
        injection h' with h1 h2
        exact h2.symm
      · by_cases hdepth :
          -pred ≤ (ballDepthNormal proj.is_inside dn.1 dn.2 radius).1
        · by_cases hf2 : f2 = FeatureId.unknown
          · subst hf2
            rw [do_update_unknown_panics hb hpq hcp hpf hdn hdepth] at h
            cases h
          · by_cases hface : ∃ i, f2 = FeatureId.face i ∧
                cp2.normal_cone f2 = []
            · obtain ⟨i, hfi, hcone⟩ := hface
              subst hfi
              rw [do_update_face_cone_panics hb hpq hcp hpf hdn hdepth
                hcone] at h
              cases h
            · have hcone : ∀ i, f2 = FeatureId.face i →
                  cp2.normal_cone f2 ≠ [] :=
                fun i hi hnil => hface ⟨i, hi, hnil⟩
              obtain ⟨kin, heq⟩ :=
                do_update_emission hb hpq hcp hpf hdn hdepth hf2 hcone
              rw [heq] at h
              injection h with h'
              injection h' with h1 h2
              exact h2.symm
        · rw [do_update_no_emission hb hpq hcp hpf hdn hdepth] at h
          injection h with h'
          injection h' with h1 h2
          exact h2.symm
    constructor
    · constructor
      · intro h
        exact Bool.noConfusion (hall man false h)
      · intro h
        rcases h with h | h | h
        · exact absurd h hb'
        · exact absurd h hpq'
        · exact absurd h hcp'
    · intro l r' h
      rw [hall l r' h]
      constructor
      · intro h'
        exact Bool.noConfusion h'
      · intro h'
        rcases h' with h' | h' | h'
        · exact absurd h' hb'
        · exact absurd h' hpq'
        · exact absurd h' hcp'

theorem do_update_false_iff_capability_mismatch_witness :
    (do_update isoZero (⟨none, none, none⟩ : Shape ℝ) isoZero ballOne 0 false
        [] = some ([], false) ↔
      ((⟨none, none, none⟩ : Shape ℝ).ball = none ∨ ballOne.pq = none ∨
        ballOne.cp = none))
    ∧ (∀ l r', do_update isoZero (⟨none, none, none⟩ : Shape ℝ) isoZero
        ballOne 0 false [] = some (l, r') →
        (r' = false ↔ ((⟨none, none, none⟩ : Shape ℝ).ball = none ∨
          ballOne.pq = none ∨ ballOne.cp = none))) :=
  do_update_false_iff_capability_mismatch isoZero isoZero
    ⟨none, none, none⟩ ballOne 0 false []

end BallGenClaims

/-- A polyhedron-like shape whose projection query answers with the outside
point `1/2` on feature Face 0, over `V = ℝ`. -/
noncomputable def polyHalf : Shape ℝ := polyProj (1/2) false (.face 0)

/-- Concrete evaluation: the unit ball centred at the origin against
`polyHalf` (projection distance `1/2`, outside) emits exactly the contact
`⟨1, 1/2, 1, 1/2⟩` whenever the depth `1/2` is within the margin. -/
theorem do_update_ballOne_polyHalf (pred : ℝ) (hp : -pred ≤ (1 : ℝ) / 2) :
    do_update isoZero ballOne isoZero polyHalf pred false [] =
      some ([(⟨1, 1 / 2, 1, 1 / 2⟩,
        ⟨.point (.face 0) 0 [], .plane (.face 0) (1 / 2) 1, 1, 0⟩)], true) := by
  have hn : ‖(1 : ℝ) / 2‖ = 1 / 2 := by
    rw [Real.norm_eq_abs, abs_of_pos]
    norm_num
  have hdn : tryNewAndGet ((1 : ℝ) / 2) defaultEpsilon = some (1, 1 / 2) := by
    rw [tryNewAndGet_of_lt (by
      rw [hn]
      norm_num [defaultEpsilon])]
    rw [hn]
    norm_num
  simp only [do_update, ballOne, polyHalf, polyProj, isoZero, sub_zero]
  rw [hdn]
  simp only []
  rw [if_pos (by
    rw [ballDepthNormal_fst]
    simp only [Bool.false_eq_true, if_false]
    linarith)]
  simp [ballDepthNormal, ContactKinematic.new, ContactKinematic.set_point1,
    ContactKinematic.set_dilation1, ContactKinematic.set_plane2]
  norm_num

/-- Claim C2 counterexample: at a displacement magnitude exactly equal to the
machine-epsilon threshold — which satisfies the claim's "at least the
threshold" condition — and with depth within the margin, a completed matched
`do_update` call pushes nothing: the emission condition is strict. -/
theorem no_push_at_exact_epsilon_magnitude :
    do_update isoZero ballOne isoZero
        (polyProj defaultEpsilon false (.face 0)) 0 false [] =
      some ([], true) ∧
    defaultEpsilon ≤ ‖(defaultEpsilon : ℝ) - 0‖ ∧
    -(0 : ℝ) ≤ 1 - ‖(defaultEpsilon : ℝ) - 0‖ := by
  have hn : ‖(defaultEpsilon : ℝ) - 0‖ = defaultEpsilon := by
    rw [sub_zero, Real.norm_eq_abs, abs_of_pos defaultEpsilon_pos]
  refine ⟨?_, le_of_eq hn.symm, ?_⟩
  · refine do_update_degenerate rfl rfl rfl rfl ?_
    rw [show (⟨false, defaultEpsilon⟩ : PointProjection ℝ).point -
      isoZero.translation = defaultEpsilon - 0 from rfl]
    exact tryNewAndGet_of_not_lt (by rw [hn]; exact lt_irrefl _)
  · rw [hn]
    norm_num [defaultEpsilon]

section C2Amended

variable {V : Type} [NormedAddCommGroup V] [NormedSpace ℝ V]
variable {m1 m2 : Iso V} {a b : Shape V} {pred : ℝ} {flip : Bool}
variable {man : List (ManifoldEntry V)} {radius : ℝ}
variable {pq2 : Iso V → V → PointProjection V × FeatureId} {cp2 : CPQueries V}
variable {proj : PointProjection V} {f2 : FeatureId}

/-- Claim C2 (amended): in every completed `do_update` call with matched
shape kinds, a contact is pushed into the manifold iff the displacement from
ball center to projection has magnitude strictly greater than the
machine-epsilon threshold and the computed depth satisfies
`depth ≥ -prediction.linear`; when the magnitude is at or below the
threshold, or the depth is below `-prediction.linear`, emission is silently
skipped and the cleared manifold stays empty. -/
theorem do_update_push_iff
    (hb : a.ball = some radius) (hpq : b.pq = some pq2) (hcp : b.cp = some cp2)
    (hpf : pq2 m2 m1.translation = (proj, f2))
    {l : List (ManifoldEntry V)}
    (hres : do_update m1 a m2 b pred flip man = some (l, true)) :
    (l ≠ [] ↔ (defaultEpsilon < ‖proj.point - m1.translation‖ ∧
      -pred ≤ (if proj.is_inside then ‖proj.point - m1.translation‖ + radius
               else radius - ‖proj.point - m1.translation‖))) := by
  rcases hdn : tryNewAndGet (proj.point - m1.translation) defaultEpsilon
    with _ | dn
  · have hlt := tryNewAndGet_eq_none_iff.mp hdn
    rw [do_update_degenerate hb hpq hcp hpf hdn] at hres
    injection hres with h'
    injection h' with h1 h2
    refine iff_of_false ?_ ?_
    · rw [← h1]
      simp
    · intro hc
      exact hlt hc.1
  · obtain ⟨hlt, hdneq⟩ := tryNewAndGet_eq_some hdn
    by_cases hdepth :
        -pred ≤ (ballDepthNormal proj.is_inside dn.1 dn.2 radius).1
    · by_cases hf2 : f2 = FeatureId.unknown
      · subst hf2
        rw [do_update_unknown_panics hb hpq hcp hpf hdn hdepth] at hres
        cases hres
      · by_cases hface : ∃ i, f2 = FeatureId.face i ∧ cp2.normal_cone f2 = []
        · obtain ⟨i, hfi, hcone⟩ := hface
          subst hfi
          rw [do_update_face_cone_panics hb hpq hcp hpf hdn hdepth hcone]
            at hres
          cases hres
        · have hcone : ∀ i, f2 = FeatureId.face i →
              cp2.normal_cone f2 ≠ [] :=
            fun i hi hnil => hface ⟨i, hi, hnil⟩
          obtain ⟨kin, heq⟩ :=
            do_update_emission hb hpq hcp hpf hdn hdepth hf2 hcone
          rw [heq] at hres
          injection hres with h'
          injection h' with h1 h2
          refine iff_of_true ?_ ⟨hlt, ?_⟩
          · rw [← h1]
            simp
          · rw [hdneq, ballDepthNormal_fst] at hdepth
            cases hi : proj.is_inside <;> rw [hi] at hdepth <;>
              simp only [if_true, if_false, Bool.false_eq_true] at hdepth ⊢ <;>
              linarith
    · rw [do_update_no_emission hb hpq hcp hpf hdn hdepth] at hres
      injection hres with h'
      injection h' with h1 h2
      refine iff_of_false ?_ ?_
      · rw [← h1]
        simp
      · intro hc
        apply hdepth
        rw [hdneq, ballDepthNormal_fst]
        rcases hc with ⟨-, hc2⟩
        cases hi : proj.is_inside <;> rw [hi] at hc2 <;>
          simp only [if_true, if_false, Bool.false_eq_true] at hc2 ⊢ <;>
          linarith

end C2Amended

theorem do_update_push_iff_witness :
    ([((⟨1, 1 / 2, 1, 1 / 2⟩ : Contact ℝ),
       (⟨.point (.face 0) 0 [], .plane (.face 0) (1 / 2) 1, 1,
         0⟩ : ContactKinematic ℝ))] ≠ ([] : List (ManifoldEntry ℝ)) ↔
      (defaultEpsilon < ‖(1 : ℝ) / 2 - 0‖ ∧
        -(0 : ℝ) ≤ (if (false : Bool) then ‖(1 : ℝ) / 2 - 0‖ + 1
          else 1 - ‖(1 : ℝ) / 2 - 0‖))) :=
  do_update_push_iff rfl rfl rfl rfl
    (do_update_ballOne_polyHalf 0 (by norm_num))

section C3Amended

variable {V : Type} [NormedAddCommGroup V] [NormedSpace ℝ V]
variable {m1 m2 : Iso V} {a b : Shape V} {pred : ℝ}
variable {man : List (ManifoldEntry V)} {radius : ℝ}
variable {pq2 : Iso V → V → PointProjection V × FeatureId} {cp2 : CPQueries V}
variable {proj : PointProjection V} {f2 : FeatureId}

/-- Claim C3 (amended): for a ball of nonnegative radius and a matched
polyhedron whose projection classifies the center as outside, at
center-to-projection distance `d` with `ε < d ≤ predictionMargin` and a
known feature (whose normal cone is non-empty when it is a face), one
`do_update` emits exactly one contact whose depth is
`radius − d`, whose normal is unit length, and whose ball-side and
polyhedron-side world points are exactly `depth = radius − d` apart along
the normal — the ball-side point lies `radius` (not the point pair
separation) from the ball center along the normal. -/
theorem do_update_outside_speculative
    (hb : a.ball = some radius) (hpq : b.pq = some pq2) (hcp : b.cp = some cp2)
    (hpf : pq2 m2 m1.translation = (proj, f2))
    (hin : proj.is_inside = false)
    (hr : 0 ≤ radius)
    (heps : defaultEpsilon < ‖proj.point - m1.translation‖)
    (hd : ‖proj.point - m1.translation‖ ≤ pred)
    (hf2 : f2 ≠ FeatureId.unknown)
    (hcone : ∀ i, f2 = FeatureId.face i → cp2.normal_cone f2 ≠ []) :
    ∃ kin : ContactKinematic V,
      do_update m1 a m2 b pred false man =
        some ([(⟨m1.translation + radius •
              (‖proj.point - m1.translation‖⁻¹ •
                (proj.point - m1.translation)),
            proj.point,
            ‖proj.point - m1.translation‖⁻¹ • (proj.point - m1.translation),
            radius - ‖proj.point - m1.translation‖⟩, kin)], true) ∧
      ‖‖proj.point - m1.translation‖⁻¹ • (proj.point - m1.translation)‖ = 1 ∧
      (m1.translation + radius •
          (‖proj.point - m1.translation‖⁻¹ •
            (proj.point - m1.translation))) - proj.point =
        (radius - ‖proj.point - m1.translation‖) •
          (‖proj.point - m1.translation‖⁻¹ •
            (proj.point - m1.translation)) := by
  have hdn := tryNewAndGet_of_lt heps
  have hne : proj.point - m1.translation ≠ 0 := by
    intro h0
    rw [h0, norm_zero] at heps
    exact absurd heps (not_lt.mpr (le_of_lt defaultEpsilon_pos))
  have hdepth : -pred ≤ (ballDepthNormal proj.is_inside
      ((‖proj.point - m1.translation‖⁻¹ • (proj.point - m1.translation),
        ‖proj.point - m1.translation‖) : V × ℝ).1
      ((‖proj.point - m1.translation‖⁻¹ • (proj.point - m1.translation),
        ‖proj.point - m1.translation‖) : V × ℝ).2 radius).1 := by
    rw [ballDepthNormal_fst, hin]
    simp only [Bool.false_eq_true, if_false]
    linarith
  obtain ⟨kin, heq⟩ := do_update_emission hb hpq hcp hpf hdn hdepth hf2 hcone
  refine ⟨kin, ?_, norm_smul_inv_norm hne, ?_⟩
  · rw [heq]
    simp [ballDepthNormal, hin, neg_add_eq_sub]
  · have hsm : ‖proj.point - m1.translation‖ •
        (‖proj.point - m1.translation‖⁻¹ • (proj.point - m1.translation)) =
        proj.point - m1.translation :=
      smul_inv_smul₀ (norm_ne_zero_iff.mpr hne) _
    rw [sub_smul, hsm]
    abel

end C3Amended

set_option maxHeartbeats 2000000 in
theorem do_update_outside_speculative_witness :
    ∃ kin : ContactKinematic ℝ,
      do_update isoZero ballOne isoZero polyHalf 1 false [] =
        some ([(⟨isoZero.translation + (1 : ℝ) •
              (‖(1 : ℝ) / 2 - 0‖⁻¹ • ((1 : ℝ) / 2 - 0)),
            (1 : ℝ) / 2,
            ‖(1 : ℝ) / 2 - 0‖⁻¹ • ((1 : ℝ) / 2 - 0),
            1 - ‖(1 : ℝ) / 2 - 0‖⟩, kin)], true) ∧
      ‖‖(1 : ℝ) / 2 - 0‖⁻¹ • ((1 : ℝ) / 2 - 0)‖ = 1 ∧
      (isoZero.translation + (1 : ℝ) •
          (‖(1 : ℝ) / 2 - 0‖⁻¹ • ((1 : ℝ) / 2 - 0))) - (1 : ℝ) / 2 =
        (1 - ‖(1 : ℝ) / 2 - 0‖) •
          (‖(1 : ℝ) / 2 - 0‖⁻¹ • ((1 : ℝ) / 2 - 0)) := by
  have hnn : ‖(1 : ℝ) / 2 - 0‖ = 1 / 2 := by
    rw [sub_zero, Real.norm_eq_abs, abs_of_pos]
    norm_num
  have hb : ballOne.ball = some 1 := rfl
  have hpq : polyHalf.pq = some (fun _ _ =>
      ((⟨false, (1 : ℝ) / 2⟩ : PointProjection ℝ), FeatureId.face 0)) := rfl
  have hcp : polyHalf.cp = some ⟨fun _ => [1], fun _ => (0, 1)⟩ := rfl
  have hpf : (fun (_ : Iso ℝ) (_ : ℝ) =>
      ((⟨false, (1 : ℝ) / 2⟩ : PointProjection ℝ), FeatureId.face 0))
      isoZero isoZero.translation =
      ((⟨false, (1 : ℝ) / 2⟩ : PointProjection ℝ), FeatureId.face 0) := rfl
  refine do_update_outside_speculative hb hpq hcp hpf rfl ?_ ?_ ?_ ?_ ?_
  · norm_num
  · rw [show (⟨false, (1 : ℝ) / 2⟩ : PointProjection ℝ).point -
      isoZero.translation = (1 : ℝ) / 2 - 0 from rfl, hnn]
    norm_num [defaultEpsilon]
  · rw [show (⟨false, (1 : ℝ) / 2⟩ : PointProjection ℝ).point -
      isoZero.translation = (1 : ℝ) / 2 - 0 from rfl, hnn]
    norm_num
  · simp
  · exact fun i hi => List.cons_ne_nil 1 []

/-- Claim C3 counterexample: the unit ball against a polyhedron at outside
distance `1/2 ≤ predictionMargin = 1` emits one contact whose ball-side and
polyhedron-side points are `depth = 1/2` apart along the unit normal — not
`radius = 1` apart as the claim states. -/
theorem outside_contact_points_not_radius_apart :
    do_update isoZero ballOne isoZero polyHalf 1 false [] =
      some ([(⟨1, 1 / 2, 1, 1 / 2⟩,
        ⟨.point (.face 0) 0 [], .plane (.face 0) (1 / 2) 1, 1, 0⟩)], true) ∧
    ‖(1 : ℝ) / 2 - 0‖ ≤ 1 ∧
    ¬ ((1 : ℝ) - 1 / 2 = (1 : ℝ) • (1 : ℝ)) := by
  refine ⟨do_update_ballOne_polyHalf 1 (by norm_num), ?_, by norm_num⟩
  rw [sub_zero, Real.norm_eq_abs, abs_of_pos] <;> norm_num

section C4Flip

variable {V : Type} [NormedAddCommGroup V] [NormedSpace ℝ V]
variable {m1 m2 : Iso V} {a b : Shape V} {pred : ℝ}
variable {man : List (ManifoldEntry V)} {radius : ℝ}
variable {pq2 : Iso V → V → PointProjection V × FeatureId} {cp2 : CPQueries V}

/-- Swap the two world points and negate the normal of a contact, and swap
the two sides (and dilations) of its kinematic record. -/
def flipEntry (e : ManifoldEntry V) : ManifoldEntry V :=
  (⟨e.1.world2, e.1.world1, -e.1.normal, e.1.depth⟩,
   ⟨e.2.side2, e.2.side1, e.2.dilation2, e.2.dilation1⟩)

/-- With matched shapes, `do_update` with `flip = true` produces exactly the
`flip = false` result with each emitted entry side-swapped and
normal-negated (and aborts exactly when the `flip = false` call aborts). -/
theorem do_update_flip_relation
    (hb : a.ball = some radius) (hpq : b.pq = some pq2)
    (hcp : b.cp = some cp2) :
    do_update m1 a m2 b pred true man =
      (do_update m1 a m2 b pred false man).map
        (fun r => (r.1.map flipEntry, r.2)) := by
  rcases hpf : pq2 m2 m1.translation with ⟨proj, f2⟩
  rcases hdn : tryNewAndGet (proj.point - m1.translation) defaultEpsilon
    with _ | dn
  · rw [do_update_degenerate hb hpq hcp hpf hdn,
      do_update_degenerate hb hpq hcp hpf hdn]
    rfl
  · by_cases hdepth :
        -pred ≤ (ballDepthNormal proj.is_inside dn.1 dn.2 radius).1
    · by_cases hf2 : f2 = FeatureId.unknown
      · subst hf2
        rw [do_update_unknown_panics hb hpq hcp hpf hdn hdepth,
          do_update_unknown_panics hb hpq hcp hpf hdn hdepth]
        rfl
      · simp only [do_update, hb, hpq, hcp, hpf, hdn]
        rw [if_pos hdepth, if_pos hdepth]
        cases f2 with
        | face i =>
          rcases hg : (cp2.normal_cone (FeatureId.face i)).head? with _ | g <;>
            simp [hg, flipEntry, ContactKinematic.new,
              ContactKinematic.set_point1, ContactKinematic.set_point2,
              ContactKinematic.set_dilation1, ContactKinematic.set_dilation2,
              ContactKinematic.set_plane1, ContactKinematic.set_plane2]
        | edge i =>
          simp [flipEntry, ContactKinematic.new, ContactKinematic.set_point1,
            ContactKinematic.set_point2, ContactKinematic.set_dilation1,
            ContactKinematic.set_dilation2, ContactKinematic.set_line1,
            ContactKinematic.set_line2]
        | vertex i =>
          simp [flipEntry, ContactKinematic.new, ContactKinematic.set_point1,
            ContactKinematic.set_point2, ContactKinematic.set_dilation1,
            ContactKinematic.set_dilation2]
        | unknown => exact absurd rfl hf2
    · rw [do_update_no_emission hb hpq hcp hpf hdn hdepth,
        do_update_no_emission hb hpq hcp hpf hdn hdepth]
      rfl

/-- Claim C4: running `update` with the arguments in one order and
`flip = false` and running it with the arguments (and subshape ids) swapped
and `flip = true` produce, for matched shapes, the same outcome up to the
contact sides being swapped and the normal negated: same abort behaviour,
same boolean, same depth and remaining contact data, with the subshape ids
recorded swapped. -/
theorem update_flip_swap
    (hb : a.ball = some radius) (hpq : b.pq = some pq2)
    (hcp : b.cp = some cp2) (s : GenState V) (id1 id2 : ℕ) :
    update true s id2 id1 m2 b m1 a pred =
      (update false s id1 id2 m1 a m2 b pred).map
        (fun r => (⟨r.1.manifold.map flipEntry, r.1.sub2, r.1.sub1⟩, r.2)) := by
  simp only [update, if_pos rfl, if_neg (by simp : ¬ (true = false))]
  rw [do_update_flip_relation hb hpq hcp]
  rcases do_update m1 a m2 b pred false s.manifold with _ | ⟨l, r⟩
  · rfl
  · rfl

end C4Flip

theorem update_flip_swap_witness :
    update true (⟨[], 0, 0⟩ : GenState ℝ) 7 5 isoZero polyHalf isoZero
        ballOne 1 =
      (update false (⟨[], 0, 0⟩ : GenState ℝ) 5 7 isoZero ballOne isoZero
          polyHalf 1).map
        (fun r => (⟨r.1.manifold.map flipEntry, r.1.sub2, r.1.sub1⟩, r.2)) :=
  update_flip_swap rfl rfl rfl ⟨[], 0, 0⟩ 5 7

end NCollide
